import Mathlib

/-!
Verification of the proxy-scanner core (`src/backend/proxy_scanner.py`).

The Python code is shallowly embedded: each probe becomes a pure Lean
function of the network behaviour it observed (modelled by an explicit
event type), the `EthicalScanManager` state becomes an explicit record
threaded through the operations, and the `RateLimiter` becomes a record
over rationals with the refill loop modelled as recursion over the list
of elapsed durations observed at each loop iteration.
-/

namespace ProxyScanner

/-- The outcome of one raw TCP exchange as seen by a byte-level probe:
either a transport-level failure (timeout / connection refused / reset),
an arbitrary other exception raised during the probe body (e.g. DNS
resolution failure), or the bytes the server sent back. -/
inductive NetEvent where
  | timeout
  | connRefused
  | connReset
  | exc (msg : String)
  | reply (bytes : List Nat)
deriving Repr, DecidableEq

/-- The outcome of the HTTP CONNECT exchange; the reply carries the
response text after `response.decode('utf-8', errors='ignore')`. -/
inductive HttpEvent where
  | timeout
  | exc (msg : String)
  | reply (s : String)
deriving Repr, DecidableEq

/-- `ScanResult` dataclass (proxy_scanner.py lines 48-59); the timestamp
and metadata fields play no role in the claims and are omitted. -/
structure ScanResult where
  ip : String
  port : Nat
  is_proxy : Bool
  proxy_type : Option String := none
  response_time : ℚ := 0
  error : Option String := none
  confidence : ℚ := 0
deriving Repr, DecidableEq

/-- `ScanTarget` dataclass (lines 35-45). -/
structure ScanTarget where
  ip : String
  port : Nat
  priority : ℚ := 1
  source : String := "manual"
  last_scan : Option Nat := none
deriving Repr, DecidableEq

/-- `ProxyProtocolDetector.detect_socks5` (lines 69-124): sends the
greeting, reads at most 2 bytes (`reader.read(2)`), and classifies.
All exception paths (timeout, refused, any other exception) fall
through to `(False, 0.0)`. -/
def detect_socks5 : NetEvent → Bool × ℚ
  | .reply bytes =>
    match bytes.take 2 with
    | [a, b] =>
      if a = 0x05 then
        if b = 0x00 then (true, 1)
        else if b = 0x02 then (true, 9/10)
        else (true, 4/5)
      else (false, 0)
    | _ => (false, 0)
  | _ => (false, 0)

/-- `ProxyProtocolDetector.detect_socks4` (lines 126-175): sends the
CONNECT request, reads at most 8 bytes, and requires `len(response) >= 2`;
`VN=0x00, CD=0x5A` gives 1.0, `VN=0x00` with another CD gives 0.7. -/
def detect_socks4 : NetEvent → Bool × ℚ
  | .reply bytes =>
    match bytes.take 8 with
    | a :: b :: _ =>
      if a = 0x00 ∧ b = 0x5A then (true, 1)
      else if a = 0x00 then (true, 7/10)
      else (false, 0)
    | _ => (false, 0)
  | _ => (false, 0)

/-- Python's substring test `needle in hay` on the underlying
character lists. -/
def subList (n : List Char) : List Char → Bool
  | [] => n.isEmpty
  | c :: t => List.isPrefixOf n (c :: t) || subList n t

/-- Python's `needle in hay` for strings. -/
def containsSub (needle hay : String) : Bool :=
  subList needle.toList hay.toList

/-- Python's `s.startswith(p)`. -/
def startsWith (p s : String) : Bool :=
  List.isPrefixOf p.toList s.toList

/-- The response classification inside `detect_http_proxy`
(lines 211-219), applied to the decoded response text. -/
def httpClassify (response_str : String) : Bool × ℚ :=
  if containsSub "HTTP/" response_str then
    if containsSub "200 Connection established" response_str then (true, 1)
    else if containsSub "407 Proxy Authentication Required" response_str then (true, 9/10)
    else if (["400", "403", "404", "500", "502", "503"] : List String).any
        (fun code => containsSub code response_str) then (true, 3/5)
    else (false, 0)
  else (false, 0)

/-- `ProxyProtocolDetector.detect_http_proxy` (lines 177-224): every
exception path returns `(False, 0.0)`; otherwise the decoded response is
classified by the substring checks. -/
def detect_http_proxy : HttpEvent → Bool × ℚ
  | .reply s => httpClassify s
  | _ => (false, 0)

/-- The `detections` list built in `detect_proxy` (lines 244-259): each
probe outcome is an `Except` (the slot of `asyncio.gather(...,
return_exceptions=True)`); an exception in a slot contributes nothing,
a `(True, confidence)` outcome contributes its tagged confidence, in
the fixed order socks5, socks4, http. -/
def detections (r5 r4 rh : Except String (Bool × ℚ)) : List (String × ℚ) :=
  (match r5 with | .ok (true, c) => [("socks5", c)] | _ => []) ++
  (match r4 with | .ok (true, c) => [("socks4", c)] | _ => []) ++
  (match rh with | .ok (true, c) => [("http", c)] | _ => [])

/-- Stable insertion of one tagged confidence into a descending-sorted
list: the inserted element comes from earlier in the original order, so
on ties it goes first. -/
def insertDesc (p : String × ℚ) : List (String × ℚ) → List (String × ℚ)
  | [] => [p]
  | q :: rest => if q.2 ≤ p.2 then p :: q :: rest else q :: insertDesc p rest

/-- Python's `detections.sort(key=lambda x: x[1], reverse=True)`: the
stable descending sort by confidence. -/
def sortByConfDesc : List (String × ℚ) → List (String × ℚ)
  | [] => []
  | p :: rest => insertDesc p (sortByConfDesc rest)

/-- `ProxyProtocolDetector.detect_proxy` (lines 226-281) given the three
gathered probe outcomes and the measured wall-clock duration `rt`:
non-exception detections are collected, sorted by confidence
(descending, stable) and the best is declared; otherwise a negative
result with confidence 0 is returned. -/
def detect_proxy (ip : String) (port : Nat) (rt : ℚ)
    (r5 r4 rh : Except String (Bool × ℚ)) : ScanResult :=
  match sortByConfDesc (detections r5 r4 rh) with
  | (t, c) :: _ =>
    { ip := ip, port := port, is_proxy := true, proxy_type := some t,
      response_time := rt, confidence := c }
  | [] =>
    { ip := ip, port := port, is_proxy := false,
      response_time := rt, confidence := 0 }

/-- The probe-level network behaviour observed while scanning one
target, plus the measured wall-clock duration. -/
structure ProbeEnv where
  e5 : NetEvent
  e4 : NetEvent
  eh : HttpEvent
  rt : ℚ := 0
deriving Repr, DecidableEq

/-- `detect_proxy` wired to the three probe bodies: since every probe
catches all of its exceptions internally (returning `(False, 0.0)`),
each gathered slot is an `Except.ok`. -/
def detect_proxy_env (ip : String) (port : Nat) (env : ProbeEnv) : ScanResult :=
  detect_proxy ip port env.rt
    (.ok (detect_socks5 env.e5))
    (.ok (detect_socks4 env.e4))
    (.ok (detect_http_proxy env.eh))

/-! ## IntelligentTargetSelector (lines 284-378) -/

/-- `self.common_proxy_ports` (lines 290-305). -/
def common_proxy_ports : List Nat :=
  [1080, 1081, 3128, 8080, 8081, 8888, 9050, 9150, 7070, 8118, 8123, 9999, 4444, 6666]

/-- Seed-phase inner loop of `generate_targets` (lines 323-334): for one
seed ip, walk the common ports; before each yield, stop the whole
generator (`return`) once `targets_generated >= max_targets`. Returns
the yielded targets, the updated counter, and whether `return` fired. -/
def seedPorts (ip : String) (maxT : Nat) : List Nat → Nat → List ScanTarget × Nat × Bool
  | [], cnt => ([], cnt, false)
  | port :: rest, cnt =>
    if maxT ≤ cnt then ([], cnt, true)
    else
      let r := seedPorts ip maxT rest (cnt + 1)
      ({ ip := ip, port := port, priority := 9/10, source := "seed" } :: r.1, r.2)

/-- Seed-phase outer loop over the seed ips. -/
def seedIps (maxT : Nat) : List String → Nat → List ScanTarget × Nat × Bool
  | [], cnt => ([], cnt, false)
  | ip :: rest, cnt =>
    let r := seedPorts ip maxT common_proxy_ports cnt
    if r.2.2 then r
    else
      let r2 := seedIps maxT rest r.2.1
      (r.1 ++ r2.1, r2.2)

/-- Range-phase loop over the ips sampled from one CIDR range
(lines 354-366): the `targets_generated >= max_targets` check runs once
per sampled ip, and the inner loop then yields a target for each of the
first 5 common ports with no further check. -/
def rangeIps (maxT : Nat) : List String → Nat → List ScanTarget × Nat × Bool
  | [], cnt => ([], cnt, false)
  | ip :: rest, cnt =>
    if maxT ≤ cnt then ([], cnt, true)
    else
      let ts := (common_proxy_ports.take 5).map
        (fun port => { ip := ip, port := port, priority := 7/10, source := "asn_range" : ScanTarget })
      let r := rangeIps maxT rest (cnt + (common_proxy_ports.take 5).length)
      (ts ++ r.1, r.2)

/-- Range-phase loop over the (first three) CIDR ranges (line 347). -/
def rangePhase (maxT : Nat) : List (List String) → Nat → List ScanTarget × Nat × Bool
  | [], cnt => ([], cnt, false)
  | ips :: rest, cnt =>
    let r := rangeIps maxT ips cnt
    if r.2.2 then r
    else
      let r2 := rangePhase maxT rest r.2.1
      (r.1 ++ r2.1, r2.2)

/-- `IntelligentTargetSelector.generate_targets` (lines 313-366) as the
list of targets the generator yields. The random host sampling
(`random.sample(list(network.hosts()), 10)` for each of
`proxy_ranges[:3]`) is an input: `sampled` holds the per-range sampled
ip lists. -/
def generate_targets (seed_ips : List String) (sampled : List (List String))
    (max_targets : Nat) : List ScanTarget :=
  let s := seedIps max_targets seed_ips 0
  if s.2.2 then s.1
  else s.1 ++ (rangePhase max_targets (sampled.take 3) s.2.1).1

/-! ## EthicalScanManager (lines 381-517) -/

/-- The hard-coded restricted ("government/military") first-octet
string tests of `is_scan_allowed` (line 442). -/
def govRanges : List String :=
  ["11.", "21.", "22.", "26.", "28.", "29.", "30."]

/-- The mutable manager state the claims touch: `self.blocklist`,
`self.scan_history` (dict ip → list of timestamps, as an association
list) and `self.scan_log` (deque of (timestamp, ip, port), maxlen
10000). Timestamps are seconds as naturals. -/
structure ScanState where
  blocklist : List String
  scan_history : List (String × List Nat) := []
  scan_log : List (Nat × String × Nat) := []
deriving Repr, DecidableEq

/-- `self.scan_history.get(ip, [])`. -/
def histGet (h : List (String × List Nat)) (ip : String) : List Nat :=
  match h.find? (fun kv => kv.1 = ip) with
  | some kv => kv.2
  | none => []

/-- `self.scan_history[ip].append(now)` preceded by
`if ip not in self.scan_history: self.scan_history[ip] = []`. -/
def histAppend (h : List (String × List Nat)) (ip : String) (now : Nat) :
    List (String × List Nat) :=
  match h with
  | [] => [(ip, [now])]
  | (k, v) :: rest =>
    if k = ip then (k, v ++ [now]) :: rest else (k, v) :: histAppend rest ip now

/-- Overwrite the binding of `ip` in the history map (auxiliary, used
only to phrase what a pruning read would have produced). -/
def histSet (h : List (String × List Nat)) (ip : String) (l : List Nat) :
    List (String × List Nat) :=
  match h with
  | [] => [(ip, l)]
  | (k, v) :: rest =>
    if k = ip then (k, l) :: rest else (k, v) :: histSet rest ip l

/-- `self.scan_log.append(e)` on a `deque(maxlen=10000)`: the oldest
entry is evicted once the deque is full. -/
def pushLog (l : List (Nat × String × Nat)) (e : Nat × String × Nat) :
    List (Nat × String × Nat) :=
  let l2 := l ++ [e]
  l2.drop (l2.length - 10000)

/-- The recent-scan filter of `is_scan_allowed` (line 435):
`[t for t in ip_history if datetime.utcnow() - t < timedelta(hours=1)]`.
With natural-number timestamps, a timestamp at or after `now` gives a
truncated difference 0 < 3600, exactly as Python's negative timedelta
compares below one hour. -/
def recentScans (st : ScanState) (now : Nat) (ip : String) : List Nat :=
  (histGet st.scan_history ip).filter (fun t => now - t < 3600)

/-- `EthicalScanManager.is_scan_allowed` (lines 426-446): blocklist
membership, then the 10-per-hour per-ip cap, then the restricted
first-octet test. The function reads but never mutates the state. -/
def is_scan_allowed (st : ScanState) (now : Nat) (tgt : ScanTarget) : Bool :=
  if st.blocklist.contains tgt.ip then false
  else if 10 ≤ (recentScans st now tgt.ip).length then false
  else if govRanges.any (fun p => startsWith p tgt.ip) then false
  else true

/-- `is_scan_allowed` together with the manager state after the call:
the method only reads `scan_history` (building the filtered list
`recent_scans` as a fresh temporary), so the state is returned
unchanged. -/
def is_scan_allowed_run (st : ScanState) (now : Nat) (tgt : ScanTarget) :
    Bool × ScanState :=
  (is_scan_allowed st now tgt, st)

/-- The state as it would look if the allowance read had pruned the
stored per-ip list down to the trailing-window entries. -/
def pruneIp (st : ScanState) (now : Nat) (ip : String) : ScanState :=
  { st with scan_history :=
      (histSet st.scan_history ip
        ((histGet st.scan_history ip).filter (fun t => now - t < 3600))) }

/-- The state mutations of `scan_target` on the allowed path
(lines 456-466): append to `scan_log` and to the per-ip history. -/
def recordScan (st : ScanState) (now : Nat) (tgt : ScanTarget) : ScanState :=
  { st with
    scan_log := pushLog st.scan_log (now, tgt.ip, tgt.port),
    scan_history := histAppend st.scan_history tgt.ip now }

/-- `EthicalScanManager.scan_target` (lines 448-475): a disallowed
target returns `None` and leaves the state alone; an allowed one
records the attempt and returns the detector's `ScanResult`. The
semaphore and rate-limiter acquisitions do not change this state and
are not modelled here. -/
def scan_target (st : ScanState) (now : Nat) (tgt : ScanTarget) (env : ProbeEnv) :
    Option ScanResult × ScanState :=
  if is_scan_allowed st now tgt then
    (some (detect_proxy_env tgt.ip tgt.port env), recordScan st now tgt)
  else (none, st)

/-- The `results` array of `asyncio.gather(*tasks,
return_exceptions=True)` in `scan_batch` (line 480): one slot per
target, each either the task's value or the exception it raised. -/
def scanOutcomes (now : Nat) : ScanState → List (ScanTarget × ProbeEnv) →
    List (Except String (Option ScanResult)) × ScanState
  | st, [] => ([], st)
  | st, (tgt, env) :: rest =>
    let r := scan_target st now tgt env
    let r2 := scanOutcomes now r.2 rest
    (Except.ok r.1 :: r2.1, r2.2)

/-- The result filter of `scan_batch` (lines 483-489): keep only actual
`ScanResult` values, dropping `None`s and exceptions. -/
def collectResults : List (Except String (Option ScanResult)) → List ScanResult
  | [] => []
  | Except.ok (some r) :: rest => r :: collectResults rest
  | _ :: rest => collectResults rest

/-- `EthicalScanManager.scan_batch` (lines 477-490) under the
cooperative schedule in which each per-target task runs its allowance
check and history update in task-creation order. -/
def scan_batch (st : ScanState) (now : Nat) (targets : List (ScanTarget × ProbeEnv)) :
    List ScanResult × ScanState :=
  let r := scanOutcomes now st targets
  (collectResults r.1, r.2)

/-- Follows the spec's words: the number of *allowed* targets of a
batch, checking each target in order against the state left by the
previously allowed ones. -/
def allowedCount (now : Nat) : ScanState → List (ScanTarget × ProbeEnv) → Nat
  | _, [] => 0
  | st, (tgt, _) :: rest =>
    if is_scan_allowed st now tgt then
      allowedCount now (recordScan st now tgt) rest + 1
    else allowedCount now st rest

/-! ## RateLimiter (lines 520-543) -/

/-- Python's `int()` truncation toward zero on a rational. -/
def ratTrunc (q : ℚ) : ℤ :=
  if 0 ≤ q then ⌊q⌋ else ⌈q⌉

/-- `RateLimiter` state: `rate`, `burst` and the current `tokens`
(floats in the source, rationals here). `last_update` is replaced by
passing each loop iteration's elapsed duration explicitly. -/
structure RateLimiter where
  rate : ℚ
  burst : ℚ
  tokens : ℚ
deriving Repr, DecidableEq

/-- `RateLimiter.__init__` (lines 523-528): `burst or int(rate * 2)`
makes a `None` (or zero) burst default to `int(rate * 2)`; the bucket
starts full. -/
def RateLimiter.init (rate : ℚ) (burst : Option ℤ) : RateLimiter :=
  let b : ℤ :=
    match burst with
    | some k => if k = 0 then ratTrunc (rate * 2) else k
    | none => ratTrunc (rate * 2)
  { rate := rate, burst := (b : ℚ), tokens := (b : ℚ) }

/-- One refill step of `acquire` (lines 534-537):
`tokens = min(burst, tokens + elapsed * rate)`. -/
def RateLimiter.refill (s : RateLimiter) (elapsed : ℚ) : RateLimiter :=
  { s with tokens := min s.burst (s.tokens + elapsed * s.rate) }

/-- The `while self.tokens < tokens:` loop of `acquire` (lines 530-543)
driven by the list of elapsed durations the monotonic clock reports at
each iteration; when the request is satisfiable the tokens are
deducted, and `none` means the supplied iterations did not suffice. -/
def acquireRun (s : RateLimiter) (n : ℚ) : List ℚ → Option RateLimiter
  | [] => if n ≤ s.tokens then some { s with tokens := s.tokens - n } else none
  | e :: rest =>
    if n ≤ s.tokens then some { s with tokens := s.tokens - n }
    else acquireRun (s.refill e) n rest

/-- The data-model invariant on the token bucket. -/
def RateLimiter.inv (s : RateLimiter) : Prop :=
  0 ≤ s.tokens ∧ s.tokens ≤ s.burst

/-! ## Helper lemmas -/

theorem insertDesc_ne_nil (p : String × ℚ) (l : List (String × ℚ)) :
    insertDesc p l ≠ [] := by
  cases l with
  | nil => simp [insertDesc]
  | cons q rest =>
    simp only [insertDesc]
    split <;> simp

theorem sortByConfDesc_eq_nil {l : List (String × ℚ)}
    (h : sortByConfDesc l = []) : l = [] := by
  cases l with
  | nil => rfl
  | cons p rest => exact absurd h (insertDesc_ne_nil p (sortByConfDesc rest))

/-- The head of the stable descending sort splits the original list at
its earliest maximal-confidence element: everything before it has
strictly smaller confidence, everything after at most its confidence. -/
theorem sortByConfDesc_head_spec :
    ∀ (l : List (String × ℚ)) (p : String × ℚ) (rest : List (String × ℚ)),
      sortByConfDesc l = p :: rest →
      ∃ l₁ l₂, l = l₁ ++ p :: l₂ ∧ (∀ q ∈ l₁, q.2 < p.2) ∧ (∀ q ∈ l₂, q.2 ≤ p.2) := by
  intro l
  induction l with
  | nil => intro p rest h; simp [sortByConfDesc] at h
  | cons x xs ih =>
    intro p rest h
    simp only [sortByConfDesc] at h
    cases hxs : sortByConfDesc xs with
    | nil =>
      have hnil : xs = [] := sortByConfDesc_eq_nil hxs
      rw [hxs] at h
      simp only [insertDesc] at h
      obtain ⟨hp, _⟩ := List.cons.inj h
      exact ⟨[], [], by simp [hnil, hp], by simp, by simp [hnil]⟩
    | cons q qs =>
      rw [hxs] at h
      obtain ⟨m₁, m₂, hsplit, hbefore, hafter⟩ := ih q qs hxs
      simp only [insertDesc] at h
      by_cases hle : q.2 ≤ x.2
      · rw [if_pos hle] at h
        obtain ⟨hp, _⟩ := List.cons.inj h
        subst hp
        refine ⟨[], xs, by simp, by simp, ?_⟩
        intro r hr
        rw [hsplit] at hr
        rcases List.mem_append.mp hr with hr1 | hr2
        · exact le_trans (le_of_lt (hbefore r hr1)) hle
        · rcases List.mem_cons.mp hr2 with hq | hr3
          · exact hq ▸ hle
          · exact le_trans (hafter r hr3) hle
      · rw [if_neg hle] at h
        obtain ⟨hp, _⟩ := List.cons.inj h
        subst hp
        refine ⟨x :: m₁, m₂, by simp [hsplit], ?_, hafter⟩
        intro r hr
        rcases List.mem_cons.mp hr with hx | hr1
        · exact hx ▸ lt_of_not_le hle
        · exact hbefore r hr1

/-! ## Claims -/

/-- C1: `detect_proxy` isolates probe failures (an exception in one
gathered slot contributes exactly what a no-detection outcome would,
leaving the other slots untouched), and among the probes that report
detection it declares the highest-confidence one, ties resolved in
favour of the earlier probe in the fixed order socks5, socks4, http
(the chosen detection splits the detection list with all earlier
entries strictly lower and all later entries no higher); if no probe
detects, the result is `is_proxy = false` with confidence 0. -/
theorem detect_proxy_selection (ip : String) (port : Nat) (rt : ℚ)
    (r5 r4 rh : Except String (Bool × ℚ)) :
    (∀ m, detections (Except.error m) r4 rh = detections (Except.ok (false, 0)) r4 rh) ∧
    (∀ m, detections r5 (Except.error m) rh = detections r5 (Except.ok (false, 0)) rh) ∧
    (∀ m, detections r5 r4 (Except.error m) = detections r5 r4 (Except.ok (false, 0))) ∧
    (detections r5 r4 rh ≠ [] →
      ∃ t c l₁ l₂,
        detect_proxy ip port rt r5 r4 rh =
          { ip := ip, port := port, is_proxy := true, proxy_type := some t,
            response_time := rt, confidence := c } ∧
        detections r5 r4 rh = l₁ ++ (t, c) :: l₂ ∧
        (∀ q ∈ l₁, q.2 < c) ∧ (∀ q ∈ l₂, q.2 ≤ c)) ∧
    (detections r5 r4 rh = [] →
      detect_proxy ip port rt r5 r4 rh =
        { ip := ip, port := port, is_proxy := false,
          response_time := rt, confidence := 0 }) := by
  refine ⟨fun _ => rfl, fun _ => rfl, fun _ => rfl, ?_, ?_⟩
  · intro hne
    cases hsort : sortByConfDesc (detections r5 r4 rh) with
    | nil => exact absurd (sortByConfDesc_eq_nil hsort) hne
    | cons p rest =>
      obtain ⟨l₁, l₂, hsplit, hbefore, hafter⟩ :=
        sortByConfDesc_head_spec _ p rest hsort
      exact ⟨p.1, p.2, l₁, l₂, by simp [detect_proxy, hsort], by simpa using hsplit,
        hbefore, hafter⟩
  · intro h
    simp [detect_proxy, h, sortByConfDesc]

/-- Witness for C1: with no probe detecting, the result is the negative
`ScanResult` with confidence 0. -/
theorem detect_proxy_selection_witness :
    detect_proxy "5.6.7.8" 1080 0 (Except.ok (false, 0)) (Except.ok (false, 0))
      (Except.ok (false, 0)) =
      { ip := "5.6.7.8", port := 1080, is_proxy := false,
        response_time := 0, confidence := 0 } :=
  (detect_proxy_selection "5.6.7.8" 1080 0 _ _ _).2.2.2.2 rfl

/-- C2: `detect_socks5` returns `(true, 1.0)` exactly when the 2-byte
reply read is `0x05 0x00`, `(true, 0.9)` exactly for `0x05 0x02`,
`(true, 0.8)` exactly for `0x05` followed by any other method byte, and
`(false, 0.0)` for a reply not beginning with `0x05`, a reply shorter
than 2 bytes, and every timeout / connection-error / exception path. -/
theorem detect_socks5_classification (bytes : List Nat) (m : String) :
    (detect_socks5 (.reply bytes) = (true, 1) ↔ bytes.take 2 = [0x05, 0x00]) ∧
    (detect_socks5 (.reply bytes) = (true, 9/10) ↔ bytes.take 2 = [0x05, 0x02]) ∧
    (detect_socks5 (.reply bytes) = (true, 4/5) ↔
      ∃ b, bytes.take 2 = [0x05, b] ∧ b ≠ 0x00 ∧ b ≠ 0x02) ∧
    (∀ a b rest, bytes = a :: b :: rest → a ≠ 0x05 →
      detect_socks5 (.reply bytes) = (false, 0)) ∧
    (bytes.length < 2 → detect_socks5 (.reply bytes) = (false, 0)) ∧
    detect_socks5 .timeout = (false, 0) ∧
    detect_socks5 .connRefused = (false, 0) ∧
    detect_socks5 .connReset = (false, 0) ∧
    detect_socks5 (.exc m) = (false, 0) := by
  rcases bytes with _ | ⟨a, _ | ⟨b, rest⟩⟩
  · refine ⟨?_, ?_, ?_, ?_, ?_, rfl, rfl, rfl, rfl⟩ <;>
      simp [detect_socks5]
  · refine ⟨?_, ?_, ?_, ?_, ?_, rfl, rfl, rfl, rfl⟩ <;>
      simp [detect_socks5]
  · have htake : (a :: b :: rest).take 2 = [a, b] := rfl
    refine ⟨?_, ?_, ?_, ?_, ?_, rfl, rfl, rfl, rfl⟩
    · by_cases ha : a = 5 <;> by_cases hb0 : b = 0 <;> by_cases hb2 : b = 2 <;>
        simp [detect_socks5, htake, ha, hb0, hb2] <;> norm_num
    · by_cases ha : a = 5 <;> by_cases hb0 : b = 0 <;> by_cases hb2 : b = 2 <;>
        simp [detect_socks5, htake, ha, hb0, hb2] <;> norm_num
    · by_cases ha : a = 5 <;> by_cases hb0 : b = 0 <;> by_cases hb2 : b = 2 <;>
        simp [detect_socks5, htake, ha, hb0, hb2] <;> norm_num
    · intro a2 b2 rest2 heq ha2
      obtain ⟨h1, h2⟩ := List.cons.inj heq
      obtain ⟨h3, _⟩ := List.cons.inj h2
      subst h1
      simp [detect_socks5, htake, ha2]
    · intro hlen
      simp at hlen
      omega

/-- Witness for C2: a server answering `0x05 0x00` yields `(true, 1.0)`,
and a 1-byte reply yields `(false, 0.0)`. -/
theorem detect_socks5_classification_witness :
    detect_socks5 (.reply [0x05, 0x00]) = (true, 1) ∧
    detect_socks5 (.reply [0x05]) = (false, 0) :=
  ⟨(detect_socks5_classification [0x05, 0x00] "").1.mpr rfl,
   (detect_socks5_classification [0x05] "").2.2.2.2.1 (by norm_num)⟩

theorem collect_scanOutcomes_length (now : Nat) :
    ∀ (targets : List (ScanTarget × ProbeEnv)) (st : ScanState),
      (collectResults (scanOutcomes now st targets).1).length =
        allowedCount now st targets := by
  intro targets
  induction targets with
  | nil => intro st; rfl
  | cons te rest ih =>
    intro st
    obtain ⟨tgt, env⟩ := te
    simp only [scanOutcomes, scan_target, allowedCount]
    by_cases h : is_scan_allowed st now tgt
    · simp only [if_pos h, collectResults, List.length_cons, ih]
    · simp only [if_neg h, collectResults, ih]

/-- C3: `scan_batch` returns exactly one `ScanResult` per allowed
target (each target checked against the state left by the previously
recorded scans), targets dropped by policy contribute no entry, and the
result filter absorbs both exception slots and `None` slots, so no
single-target failure escapes the batch. -/
theorem scan_batch_one_result_per_allowed (st : ScanState) (now : Nat)
    (targets : List (ScanTarget × ProbeEnv)) :
    (scan_batch st now targets).1.length = allowedCount now st targets ∧
    (∀ (outs : List (Except String (Option ScanResult))) (m : String),
      collectResults (Except.error m :: outs) = collectResults outs) ∧
    (∀ outs : List (Except String (Option ScanResult)),
      collectResults (Except.ok none :: outs) = collectResults outs) :=
  ⟨collect_scanOutcomes_length now targets st, fun _ _ => rfl, fun _ => rfl⟩

/-- C4 counterexample: a truly unexpected exception (DNS resolution
failure) inside every probe is swallowed by the probes' blanket
exception handlers, and the `ScanResult` that `detect_proxy` returns
has `error = None` — the exception is not carried in the error field,
contrary to the claim. -/
theorem detect_proxy_error_never_set_cex :
    (detect_proxy_env "1.2.3.4" 8080
      { e5 := .exc "DNS resolution failure", e4 := .exc "DNS resolution failure",
        eh := .exc "DNS resolution failure", rt := 0 }).error = none ∧
    (detect_proxy_env "1.2.3.4" 8080
      { e5 := .exc "DNS resolution failure", e4 := .exc "DNS resolution failure",
        eh := .exc "DNS resolution failure", rt := 0 }).is_proxy = false :=
  ⟨rfl, rfl⟩

/-- C4 amended: every probe folds every exception, expected or not,
into `(False, 0.0)`, and the `ScanResult` returned by `detect_proxy`
always has `error = None`; transient and unexpected failures alike are
reported only as non-detection, never through the error field. -/
theorem probe_exceptions_swallowed (ip : String) (port : Nat)
    (env : ProbeEnv) (m : String) :
    detect_socks5 (.exc m) = (false, 0) ∧
    detect_socks4 (.exc m) = (false, 0) ∧
    detect_http_proxy (.exc m) = (false, 0) ∧
    (detect_proxy_env ip port env).error = none := by
  refine ⟨rfl, rfl, rfl, ?_⟩
  unfold detect_proxy_env detect_proxy
  cases hsort : sortByConfDesc (detections (Except.ok (detect_socks5 env.e5))
      (Except.ok (detect_socks4 env.e4)) (Except.ok (detect_http_proxy env.eh))) with
  | nil => simp [hsort]
  | cons p rest => obtain ⟨t, c⟩ := p; simp [hsort]

/-- C5: `is_scan_allowed` returns false exactly when the ip is
blocklisted, or the number of recorded scans of that ip within the
trailing 1-hour window has reached the cap of 10, or the ip starts with
one of the restricted first-octet strings; in particular an ip with 10
recent recorded scans (the 11th attempt) is denied. -/
theorem is_scan_allowed_characterization (st : ScanState) (now : Nat) (tgt : ScanTarget) :
    (is_scan_allowed st now tgt = false ↔
      (tgt.ip ∈ st.blocklist ∨ 10 ≤ (recentScans st now tgt.ip).length ∨
        ∃ p ∈ govRanges, startsWith p tgt.ip = true)) ∧
    ((recentScans st now tgt.ip).length = 10 → is_scan_allowed st now tgt = false) := by
  constructor
  · unfold is_scan_allowed
    split_ifs with h1 h2 h3
    · simp only [true_iff]
      exact Or.inl (by simpa using h1)
    · simp only [true_iff]
      exact Or.inr (Or.inl h2)
    · simp only [true_iff]
      exact Or.inr (Or.inr (by simpa [List.any_eq_true] using h3))
    · simp only [false_iff]
      push_neg
      simp only [List.any_eq_true] at h3
      push_neg at h3
      exact ⟨by simpa using h1, by omega, fun p hp => by simpa using h3 p hp⟩
  · intro h10
    unfold is_scan_allowed
    split_ifs with h1 h2 <;> simp_all

/-- Witness for C5: an ip with 10 scans recorded within the last hour
is denied on its 11th attempt. -/
theorem is_scan_allowed_characterization_witness :
    is_scan_allowed
      { blocklist := [], scan_history := [("203.0.113.7", [0,0,0,0,0,0,0,0,0,0])] }
      100 { ip := "203.0.113.7", port := 1080 } = false :=
  (is_scan_allowed_characterization _ 100 _).2 rfl

/-- C6 counterexample: `HTTP/1.1 401 Unauthorized` is a valid HTTP
response line with a 4xx status code, yet `detect_http_proxy` reports
no detection (the code only matches the six fixed substrings 400, 403,
404, 500, 502, 503), contradicting the claim that any 4xx/5xx response
yields `(true, 0.6)`. -/
theorem http_4xx_not_all_detected_cex :
    containsSub "HTTP/" "HTTP/1.1 401 Unauthorized" = true ∧
    detect_http_proxy (.reply "HTTP/1.1 401 Unauthorized") = (false, 0) :=
  ⟨rfl, rfl⟩

/-- C6 amended: the response is classified by substring containment:
`200 Connection established` anywhere gives `(true, 1.0)`; otherwise
`407 Proxy Authentication Required` gives `(true, 0.9)`; otherwise one
of the six fixed code substrings 400/403/404/500/502/503 (not every
4xx/5xx status) gives `(true, 0.6)`; everything else, including any
response without `HTTP/`, gives `(false, 0.0)`, as do the timeout and
exception paths. -/
theorem http_classify_characterization (s : String) (m : String) :
    (httpClassify s = (true, 1) ↔
      (containsSub "HTTP/" s && containsSub "200 Connection established" s) = true) ∧
    (httpClassify s = (true, 9/10) ↔
      (containsSub "HTTP/" s && !containsSub "200 Connection established" s &&
        containsSub "407 Proxy Authentication Required" s) = true) ∧
    (httpClassify s = (true, 3/5) ↔
      (containsSub "HTTP/" s && !containsSub "200 Connection established" s &&
        !containsSub "407 Proxy Authentication Required" s &&
        (["400", "403", "404", "500", "502", "503"] : List String).any
          (fun code => containsSub code s)) = true) ∧
    (httpClassify s = (false, 0) ↔
      (!containsSub "HTTP/" s ||
        (!containsSub "200 Connection established" s &&
         !containsSub "407 Proxy Authentication Required" s &&
         !(["400", "403", "404", "500", "502", "503"] : List String).any
            (fun code => containsSub code s))) = true) ∧
    detect_http_proxy (.reply s) = httpClassify s ∧
    detect_http_proxy .timeout = (false, 0) ∧
    detect_http_proxy (.exc m) = (false, 0) := by
  refine ⟨?_, ?_, ?_, ?_, rfl, rfl, rfl⟩ <;>
  · unfold httpClassify
    generalize (["400", "403", "404", "500", "502", "503"] : List String).any
        (fun code => containsSub code s) = A
    split_ifs with h1 h2 h3 h4 <;> simp_all <;> norm_num

theorem refill_inv {s : RateLimiter} {e : ℚ} (hs : s.inv) (hr : 0 ≤ s.rate)
    (he : 0 ≤ e) : (s.refill e).inv := by
  obtain ⟨h0, hb⟩ := hs
  constructor
  · exact le_min (le_trans h0 hb) (by positivity)
  · exact min_le_left _ _

theorem acquireRun_inv {n : ℚ} (hn : 0 ≤ n) :
    ∀ (es : List ℚ) (s s2 : RateLimiter), s.inv → 0 ≤ s.rate →
      (∀ e ∈ es, 0 ≤ e) → acquireRun s n es = some s2 → s2.inv := by
  intro es
  induction es with
  | nil =>
    intro s s2 hs hr _ hrun
    simp only [acquireRun] at hrun
    split_ifs at hrun with hle
    · obtain ⟨h0, hb⟩ := hs
      cases hrun
      exact ⟨show (0:ℚ) ≤ s.tokens - n by linarith,
        show s.tokens - n ≤ s.burst by linarith⟩
  | cons e rest ih =>
    intro s s2 hs hr hes hrun
    simp only [acquireRun] at hrun
    split_ifs at hrun with hle
    · obtain ⟨h0, hb⟩ := hs
      cases hrun
      exact ⟨show (0:ℚ) ≤ s.tokens - n by linarith,
        show s.tokens - n ≤ s.burst by linarith⟩
    · exact ih (s.refill e) s2 (refill_inv hs hr (hes e (by simp))) hr
        (fun x hx => hes x (by simp [hx])) hrun

/-- C7: `0 ≤ tokens ≤ burst` holds at construction (for a non-negative
rate, with the default burst or any non-negative explicit burst), is
preserved by every refill step of `acquire`, and is preserved by every
completed `acquire` with a non-negative token request. -/
theorem rate_limiter_invariant :
    (∀ rate : ℚ, 0 ≤ rate → (RateLimiter.init rate none).inv) ∧
    (∀ (rate : ℚ) (k : ℤ), 0 ≤ rate → 0 ≤ k → (RateLimiter.init rate (some k)).inv) ∧
    (∀ (s : RateLimiter) (e : ℚ), s.inv → 0 ≤ s.rate → 0 ≤ e → (s.refill e).inv) ∧
    (∀ (s : RateLimiter) (n : ℚ) (es : List ℚ) (s2 : RateLimiter),
      s.inv → 0 ≤ s.rate → 0 ≤ n → (∀ e ∈ es, 0 ≤ e) →
      acquireRun s n es = some s2 → s2.inv) := by
  refine ⟨?_, ?_, fun s e hs hr he => refill_inv hs hr he,
    fun s n es s2 hs hr hn hes hrun => acquireRun_inv hn es s s2 hs hr hes hrun⟩
  · intro rate hr
    have hfl : (0 : ℤ) ≤ ⌊rate * 2⌋ := Int.floor_nonneg.mpr (by linarith)
    have : (0 : ℚ) ≤ (ratTrunc (rate * 2) : ℚ) := by
      unfold ratTrunc
      rw [if_pos (by linarith : (0:ℚ) ≤ rate * 2)]
      exact_mod_cast hfl
    exact ⟨this, le_refl _⟩
  · intro rate k hr hk
    unfold RateLimiter.init RateLimiter.inv
    by_cases h0 : k = 0
    · subst h0
      simp only [if_pos rfl]
      have hfl : (0 : ℤ) ≤ ⌊rate * 2⌋ := Int.floor_nonneg.mpr (by linarith)
      constructor
      · unfold ratTrunc
        rw [if_pos (by linarith : (0:ℚ) ≤ rate * 2)]
        exact_mod_cast hfl
      · exact le_refl _
    · simp only [if_neg h0]
      exact ⟨by exact_mod_cast hk, le_refl _⟩

/-- Witness for C7: the invariant at a freshly-built limiter, after an
explicit-burst construction, after one refill, and after a completed
`acquire(4)` on `RateLimiter(rate=2, burst=4)`. -/
theorem rate_limiter_invariant_witness :
    (RateLimiter.init 2 none).inv ∧
    (RateLimiter.init 2 (some 4)).inv ∧
    ((⟨2, 4, 1⟩ : RateLimiter).refill 1).inv ∧
    (⟨2, 4, 0⟩ : RateLimiter).inv := by
  refine ⟨rate_limiter_invariant.1 2 (by norm_num),
    rate_limiter_invariant.2.1 2 4 (by norm_num) (by norm_num),
    rate_limiter_invariant.2.2.1 ⟨2, 4, 1⟩ 1 ⟨by norm_num, by norm_num⟩ (by norm_num) (by norm_num),
    rate_limiter_invariant.2.2.2 ⟨2, 4, 0⟩ 4 [0, 2] ⟨2, 4, 0⟩
      ⟨by norm_num, by norm_num⟩ (by norm_num) (by norm_num)
      (by intro e he; simp at he; rcases he with h | h <;> norm_num [h]) ?_⟩
  norm_num [acquireRun, RateLimiter.refill]

/-- C10: with a positive rate and a request `0 ≤ n ≤ burst`, `acquire`
terminates: after at most one ordinary refill and one refill following
the computed deficit sleep `(n - available) / rate`, the loop exits.
Conversely a request larger than `burst` can never be satisfied — the
refill is clamped at `burst` — so the loop never exits, whatever the
elapsed durations. -/
theorem acquire_termination :
    (∀ (s : RateLimiter) (n e1 e2 : ℚ),
      s.inv → 0 < s.rate → 0 ≤ n → n ≤ s.burst → 0 ≤ e1 →
      (n - (s.refill e1).tokens) / s.rate ≤ e2 →
      (acquireRun s n [e1, e2]).isSome = true) ∧
    (∀ (s : RateLimiter) (n : ℚ), s.tokens ≤ s.burst → s.burst < n →
      ∀ es : List ℚ, acquireRun s n es = none) := by
  constructor
  · intro s n e1 e2 hs hr hn hb he1 he2
    simp only [acquireRun]
    split_ifs with h1 h2 h3
    · rfl
    · rfl
    · rfl
    · exfalso
      apply h3
      have hmul : n - (s.refill e1).tokens ≤ e2 * s.rate := by
        calc n - (s.refill e1).tokens = (n - (s.refill e1).tokens) / s.rate * s.rate := by
              field_simp
          _ ≤ e2 * s.rate := mul_le_mul_of_nonneg_right he2 (le_of_lt hr)
      show n ≤ min (s.refill e1).burst ((s.refill e1).tokens + e2 * (s.refill e1).rate)
      have hb2 : (s.refill e1).burst = s.burst := rfl
      have hr2 : (s.refill e1).rate = s.rate := rfl
      rw [hb2, hr2]
      exact le_min hb (by linarith)
  · intro s n hb hlt es
    induction es generalizing s with
    | nil =>
      simp only [acquireRun]
      rw [if_neg (by linarith : ¬ n ≤ s.tokens)]
    | cons e rest ih =>
      simp only [acquireRun]
      rw [if_neg (by linarith : ¬ n ≤ s.tokens)]
      exact ih (s.refill e) (min_le_left _ _) hlt

/-- Witness for C10: `RateLimiter(rate=2, burst=4)` with an empty
bucket satisfies `acquire(4)` after the deficit sleep, while
`acquire(5)` never completes however much time passes. -/
theorem acquire_termination_witness :
    (acquireRun ⟨2, 4, 0⟩ 4 [0, 2]).isSome = true ∧
    acquireRun ⟨2, 4, 4⟩ 5 [100, 100] = none :=
  ⟨acquire_termination.1 ⟨2, 4, 0⟩ 4 0 2 ⟨by norm_num, by norm_num⟩ (by norm_num)
      (by norm_num) (by norm_num) (by norm_num)
      (by norm_num [RateLimiter.refill]),
   acquire_termination.2 ⟨2, 4, 4⟩ 5 (by norm_num) (by norm_num) [100, 100]⟩

/-- Follows the spec's words: a seed-phase target (priority 0.9,
source `seed`). -/
def isSeedTarget (t : ScanTarget) : Bool :=
  decide (t.priority = 9/10) && decide (t.source = "seed")

/-- Follows the spec's words: a range-phase target (priority 0.7,
source `asn_range`). -/
def isRangeTarget (t : ScanTarget) : Bool :=
  decide (t.priority = 7/10) && decide (t.source = "asn_range")

theorem seedPorts_spec (ip : String) (maxT : Nat) :
    ∀ (ports : List Nat) (cnt : Nat), cnt ≤ maxT →
      (seedPorts ip maxT ports cnt).2.1 = cnt + (seedPorts ip maxT ports cnt).1.length ∧
      (seedPorts ip maxT ports cnt).2.1 ≤ maxT ∧
      (seedPorts ip maxT ports cnt).1.all isSeedTarget = true := by
  intro ports
  induction ports with
  | nil => intro cnt hc; simp [seedPorts, hc]
  | cons port rest ih =>
    intro cnt hc
    simp only [seedPorts]
    by_cases h : maxT ≤ cnt
    · rw [if_pos h]
      exact ⟨by simp, hc, rfl⟩
    · rw [if_neg h]
      obtain ⟨ih1, ih2, ih3⟩ := ih (cnt + 1) (by omega)
      refine ⟨?_, by simpa using ih2, ?_⟩
      · simp only [List.length_cons]
        omega
      · simp only [List.all_cons, ih3, Bool.and_true]
        simp [isSeedTarget]

theorem seedIps_spec (maxT : Nat) :
    ∀ (seeds : List String) (cnt : Nat), cnt ≤ maxT →
      (seedIps maxT seeds cnt).2.1 = cnt + (seedIps maxT seeds cnt).1.length ∧
      (seedIps maxT seeds cnt).2.1 ≤ maxT ∧
      (seedIps maxT seeds cnt).1.all isSeedTarget = true := by
  intro seeds
  induction seeds with
  | nil => intro cnt hc; simp [seedIps, hc]
  | cons ip rest ih =>
    intro cnt hc
    simp only [seedIps]
    obtain ⟨p1, p2, p3⟩ := seedPorts_spec ip maxT common_proxy_ports cnt hc
    by_cases h : (seedPorts ip maxT common_proxy_ports cnt).2.2 = true
    · rw [if_pos h]
      exact ⟨p1, p2, p3⟩
    · rw [if_neg h]
      obtain ⟨i1, i2, i3⟩ := ih (seedPorts ip maxT common_proxy_ports cnt).2.1 p2
      refine ⟨?_, i2, ?_⟩
      · simp only [List.length_append]
        omega
      · simp only [List.all_append, p3, i3, Bool.and_self]

theorem rangeIps_spec (maxT : Nat) :
    ∀ (ips : List String) (cnt : Nat), cnt ≤ maxT + 4 →
      (rangeIps maxT ips cnt).2.1 = cnt + (rangeIps maxT ips cnt).1.length ∧
      (rangeIps maxT ips cnt).2.1 ≤ maxT + 4 ∧
      (rangeIps maxT ips cnt).1.all isRangeTarget = true := by
  intro ips
  induction ips with
  | nil => intro cnt hc; simp [rangeIps, hc]
  | cons ip rest ih =>
    intro cnt hc
    simp only [rangeIps]
    by_cases h : maxT ≤ cnt
    · rw [if_pos h]
      exact ⟨by simp, hc, rfl⟩
    · rw [if_neg h]
      have h5 : (common_proxy_ports.take 5).length = 5 := rfl
      obtain ⟨i1, i2, i3⟩ := ih (cnt + (common_proxy_ports.take 5).length) (by omega)
      refine ⟨?_, i2, ?_⟩
      · simp only [List.length_append, List.length_map]
        omega
      · simp only [List.all_append, i3, Bool.and_true]
        simp [isRangeTarget, common_proxy_ports]

theorem rangePhase_spec (maxT : Nat) :
    ∀ (rss : List (List String)) (cnt : Nat), cnt ≤ maxT + 4 →
      (rangePhase maxT rss cnt).2.1 = cnt + (rangePhase maxT rss cnt).1.length ∧
      (rangePhase maxT rss cnt).2.1 ≤ maxT + 4 ∧
      (rangePhase maxT rss cnt).1.all isRangeTarget = true := by
  intro rss
  induction rss with
  | nil => intro cnt hc; simp [rangePhase, hc]
  | cons ips rest ih =>
    intro cnt hc
    simp only [rangePhase]
    obtain ⟨p1, p2, p3⟩ := rangeIps_spec maxT ips cnt hc
    by_cases h : (rangeIps maxT ips cnt).2.2 = true
    · rw [if_pos h]
      exact ⟨p1, p2, p3⟩
    · rw [if_neg h]
      obtain ⟨i1, i2, i3⟩ := ih (rangeIps maxT ips cnt).2.1 p2
      refine ⟨?_, i2, ?_⟩
      · simp only [List.length_append]
        omega
      · simp only [List.all_append, p3, i3, Bool.and_self]

/-- C8 amended: `generate_targets` yields all seed-phase targets
(priority 0.9, source `seed`) before all range-phase targets (priority
0.7, source `asn_range`); the seed phase respects `max_targets`
exactly, but the range phase checks the cap only once per sampled host
before emitting up to 5 port targets, so the total may overshoot
`max_targets` by up to 4. -/
theorem generate_targets_shape_and_cap (seeds : List String)
    (sampled : List (List String)) (maxT : Nat) :
    ∃ pre post,
      generate_targets seeds sampled maxT = pre ++ post ∧
      pre.all isSeedTarget = true ∧
      post.all isRangeTarget = true ∧
      pre.length ≤ maxT ∧
      (generate_targets seeds sampled maxT).length ≤ maxT + 4 := by
  obtain ⟨s1, s2, s3⟩ := seedIps_spec maxT seeds 0 (by omega)
  unfold generate_targets
  by_cases h : (seedIps maxT seeds 0).2.2 = true
  · rw [if_pos h]
    exact ⟨_, [], by simp, s3, rfl, by omega, by simpa using by omega⟩
  · rw [if_neg h]
    obtain ⟨r1, r2, r3⟩ := rangePhase_spec maxT (sampled.take 3) (seedIps maxT seeds 0).2.1 (by omega)
    refine ⟨_, _, rfl, s3, r3, by omega, ?_⟩
    rw [List.length_append]
    omega

/-- Three per-range host samples of size 10, as
`random.sample(ips, min(10, len(ips)))` produces for the three
`proxy_ranges[:3]` CIDR blocks. -/
def sampledDemo : List (List String) :=
  [["104.248.0.1", "104.248.0.2", "104.248.0.3", "104.248.0.4", "104.248.0.5",
    "104.248.0.6", "104.248.0.7", "104.248.0.8", "104.248.0.9", "104.248.0.10"],
   ["159.65.0.1", "159.65.0.2", "159.65.0.3", "159.65.0.4", "159.65.0.5",
    "159.65.0.6", "159.65.0.7", "159.65.0.8", "159.65.0.9", "159.65.0.10"],
   ["167.172.0.1", "167.172.0.2", "167.172.0.3", "167.172.0.4", "167.172.0.5",
    "167.172.0.6", "167.172.0.7", "167.172.0.8", "167.172.0.9", "167.172.0.10"]]

/-- C8 counterexample: with no seed ips and `max_targets = 1`, the
generator still yields 5 targets (the range phase checks the cap only
before each sampled host, then emits one target per port of the 5-port
subset unconditionally), exceeding `max_targets`. -/
theorem generate_targets_cap_overshoot_cex :
    (generate_targets [] sampledDemo 1).length = 5 ∧ ¬ (5 ≤ 1) :=
  ⟨rfl, by omega⟩

theorem histGet_histSet_self (h : List (String × List Nat)) (ip : String) (l : List Nat) :
    histGet (histSet h ip l) ip = l := by
  induction h with
  | nil => simp [histSet, histGet, List.find?]
  | cons kv rest ih =>
    obtain ⟨k, v⟩ := kv
    by_cases hk : k = ip
    · simp [histSet, hk, histGet, List.find?]
    · simp only [histSet, if_neg hk, histGet, List.find?]
      rw [show (decide (k = ip)) = false by simp [hk]]
      simpa [histGet] using ih

theorem filter_idem (p : Nat → Bool) (l : List Nat) :
    (l.filter p).filter p = l.filter p := by
  induction l with
  | nil => rfl
  | cons x xs ih =>
    by_cases hx : p x
    · simp [List.filter, hx, ih]
    · simp only [List.filter]
      rw [show p x = false by simpa using hx]
      exact ih

/-- C9 counterexample: an entry a stale 10000 − 0 ≥ 3600 seconds old is
still in the stored per-ip history map after the allowance check — the
check filters a fresh temporary list and never writes the map, so
stale entries are not removed, contrary to the claim. -/
theorem scan_history_not_pruned_cex :
    (is_scan_allowed_run { blocklist := [], scan_history := [("9.9.9.9", [0])] }
      10000 { ip := "9.9.9.9", port := 1080 }).2.scan_history = [("9.9.9.9", [0])] ∧
    ¬ (10000 - 0 < 3600) :=
  ⟨rfl, by omega⟩

/-- C9 amended: the allowance check is a pure read — the manager state,
including the per-ip timestamp map, is unchanged by it; the check only
counts over a filtered temporary copy, so its decision is the same as
it would be on a state whose per-ip list had actually been pruned to
the 1-hour window, but the stored map keeps its stale entries. -/
theorem is_scan_allowed_pure_read (st : ScanState) (now : Nat) (tgt : ScanTarget) :
    (is_scan_allowed_run st now tgt).2 = st ∧
    is_scan_allowed (pruneIp st now tgt.ip) now tgt = is_scan_allowed st now tgt := by
  refine ⟨rfl, ?_⟩
  unfold is_scan_allowed pruneIp recentScans
  simp only [histGet_histSet_self, filter_idem]

end ProxyScanner
